import Mathlib

/-!
Shallow embedding of the `siren-types` crate (file `src/types.rs`): the Siren
hypermedia data model (`Entity`, `SubEntity`, `EntityLink`, `NavigationalLink`,
`Action`, `Field`), its builder API, and the serde-derived JSON
(de)serialization, including the untagged `SubEntity` variant resolution.

JSON values are modelled by an inductive `Json` type; JSON objects are
association lists in emission order (serde emits struct fields in declaration
order).  Deserialization of a derived struct is modelled field by field:
each declared field is looked up by name, required fields error with a
missing-field error when absent, `serde(default)` fields fall back to the
field type's `Default`, and unknown keys are ignored (the crate never opts
into `deny_unknown_fields`).
-/

namespace Siren

inductive Json where
  | null : Json
  | bool : Bool → Json
  | num : Int → Json
  | str : String → Json
  | arr : List Json → Json
  | obj : List (String × Json) → Json

/-- Decoding errors, mirroring the shapes of `serde_json::Error` the crate can
surface: a missing required field, a type mismatch, or a custom message (the
message serde emits when every variant of an untagged enum fails). -/
inductive DeError where
  | missingField : String → DeError
  | invalidType : String → DeError
  | custom : String → DeError
deriving DecidableEq

/-- Field lookup in a JSON object, first occurrence wins (objects produced by
`serde_json` hold each key at most once). -/
def lookupField : List (String × Json) → String → Option Json
  | [], _ => none
  | (k, v) :: rest, key => if k = key then some v else lookupField rest key

/-- Deserializing a `String` field value. -/
def decodeString : Json → Except DeError String
  | .str s => .ok s
  | _ => .error (.invalidType "a string")

/-- Deserializing a `Vec<String>` field value. -/
def decodeStringList : Json → Except DeError (List String)
  | .arr xs => xs.mapM decodeString
  | _ => .error (.invalidType "a sequence")

/-- Deserializing an `Option<String>` field value (null maps to `None`). -/
def decodeOptString : Json → Except DeError (Option String)
  | .null => .ok none
  | .str s => .ok (some s)
  | _ => .error (.invalidType "a string")

/-- A required `String` struct field: absent keys are a missing-field error. -/
def reqString (fields : List (String × Json)) (k : String) : Except DeError String :=
  match lookupField fields k with
  | none => .error (.missingField k)
  | some v => decodeString v

/-- A required `Vec<String>` struct field (no `serde(default)`). -/
def reqStringList (fields : List (String × Json)) (k : String) : Except DeError (List String) :=
  match lookupField fields k with
  | none => .error (.missingField k)
  | some v => decodeStringList v

/-- A `#[serde(default)] Vec<String>` struct field: absent keys default to the
empty vector. -/
def defStringList (fields : List (String × Json)) (k : String) : Except DeError (List String) :=
  match lookupField fields k with
  | none => .ok []
  | some v => decodeStringList v

/-- An `Option<String>` struct field: absent keys default to `None`. -/
def optStringField (fields : List (String × Json)) (k : String) :
    Except DeError (Option String) :=
  match lookupField fields k with
  | none => .ok none
  | some v => decodeOptString v

/-- The protocol verb of an action.  The `http::Method` type is an external
collaborator; the spec treats it as an opaque enumerated string, so it is
modelled as a string. -/
abbrev Method := String

/-- The HTTP GET verb. -/
def Method.GET : Method := "GET"

/-- Modelled from the spec: the module `crate::http_serde::option_method`
referenced by the `serde(with = ...)` attribute on `Action.method` is not under
`src/`.  Per the spec, the method is consumed as an opaque enumerated string;
the encoder always emits the `method` key ("encode always studs the field"), so
a present verb is written as its string and an unset one as JSON null. -/
def option_method.serialize : Option Method → Json
  | some m => .str m
  | none => .null

/-- Modelled from the spec: deserialization half of
`crate::http_serde::option_method` (not under `src/`).  A `serde(with = ...)`
codec is only consulted for a present key, so it reads an optional string:
a method string maps to `some`, JSON null to `none`.  The GET defaulting the
spec describes concerns a key absent from the wire, which is handled (or not,
see the claims about `Action`) by the derived deserializer before this module
is ever consulted. -/
def option_method.deserialize : Json → Except DeError (Option Method)
  | .str s => .ok (some s)
  | .null => .ok none
  | _ => .error (.invalidType "a string")

/-- `Field` from `src/types.rs`: one input descriptor of an action. -/
structure Field where
  name : String
  «class» : List String
  _type : Option String
  value : Option String
  title : Option String
deriving DecidableEq

/-- Serde serialization of `Field` (declaration order; `None` scalar options
are skipped via `skip_serializing_if`). -/
def encodeField (f : Field) : Json :=
  .obj ([("name", .str f.name), ("class", .arr (f.«class».map .str))]
    ++ (match f._type with | none => [] | some t => [("type", .str t)])
    ++ (match f.value with | none => [] | some v => [("value", .str v)])
    ++ (match f.title with | none => [] | some t => [("title", .str t)]))

/-- Serde deserialization of `Field`: `name` required, `class` defaulted,
`type`, `value`, `title` optional. -/
def decodeField (j : Json) : Except DeError Field :=
  match j with
  | .obj fields => do
    let name ← reqString fields "name"
    let cls ← defStringList fields "class"
    let ty ← optStringField fields "type"
    let value ← optStringField fields "value"
    let title ← optStringField fields "title"
    .ok ⟨name, cls, ty, value, title⟩
  | _ => .error (.invalidType "a map")

/-- `Action` from `src/types.rs`. -/
structure Action where
  name : String
  «class» : List String
  method : Option Method
  href : String
  title : Option String
  _type : Option String
  fields : List Field
deriving DecidableEq

/-- Serde serialization of `Action`.  The `method` field carries no
`skip_serializing_if`, so it is always emitted, through the
`option_method` codec. -/
def encodeAction (a : Action) : Json :=
  .obj ([("name", .str a.name), ("class", .arr (a.«class».map .str)),
         ("method", option_method.serialize a.method), ("href", .str a.href)]
    ++ (match a.title with | none => [] | some t => [("title", .str t)])
    ++ (match a._type with | none => [] | some t => [("type", .str t)])
    ++ [("fields", .arr (a.fields.map encodeField))])

/-- Serde deserialization of `Action`.  Note that `method` carries
`serde(with = ...)` but no `serde(default)`: serde's derived code turns an
absent key into a missing-field error instead of consulting the codec. -/
def decodeAction (j : Json) : Except DeError Action :=
  match j with
  | .obj fields => do
    let name ← reqString fields "name"
    let cls ← defStringList fields "class"
    let method ← match lookupField fields "method" with
      | none => .error (.missingField "method")
      | some v => option_method.deserialize v
    let href ← reqString fields "href"
    let title ← optStringField fields "title"
    let ty ← optStringField fields "type"
    let flds ← match lookupField fields "fields" with
      | none => .ok []
      | some (.arr xs) => xs.mapM decodeField
      | some _ => .error (.invalidType "a sequence")
    .ok ⟨name, cls, method, href, title, ty, flds⟩
  | _ => .error (.invalidType "a map")

/-- `NavigationalLink` from `src/types.rs`.  `rel` and `href` carry no
`serde(default)`; `class`, `title`, `type` are defaulted/optional. -/
structure NavigationalLink where
  rel : List String
  «class» : List String
  href : String
  title : Option String
  _type : Option String
deriving DecidableEq

/-- Serde serialization of `NavigationalLink` (declaration order). -/
def encodeNavigationalLink (nl : NavigationalLink) : Json :=
  .obj ([("rel", .arr (nl.rel.map .str)), ("class", .arr (nl.«class».map .str)),
         ("href", .str nl.href)]
    ++ (match nl.title with | none => [] | some t => [("title", .str t)])
    ++ (match nl._type with | none => [] | some t => [("type", .str t)]))

/-- Serde deserialization of `NavigationalLink`: `rel` and `href` required. -/
def decodeNavigationalLink (j : Json) : Except DeError NavigationalLink :=
  match j with
  | .obj fields => do
    let rel ← reqStringList fields "rel"
    let cls ← defStringList fields "class"
    let href ← reqString fields "href"
    let title ← optStringField fields "title"
    let ty ← optStringField fields "type"
    .ok ⟨rel, cls, href, title, ty⟩
  | _ => .error (.invalidType "a map")

/-- `EntityLink` from `src/types.rs`: the link shape of a sub-entity.
Only `href` is required; `rel` carries `serde(default)`. -/
structure EntityLink where
  «class» : List String
  title : Option String
  rel : List String
  href : String
  _type : Option String
deriving DecidableEq

/-- Serde serialization of `EntityLink` (declaration order). -/
def encodeEntityLink (l : EntityLink) : Json :=
  .obj ([("class", .arr (l.«class».map .str))]
    ++ (match l.title with | none => [] | some t => [("title", .str t)])
    ++ [("rel", .arr (l.rel.map .str)), ("href", .str l.href)]
    ++ (match l._type with | none => [] | some t => [("type", .str t)]))

/-- Serde deserialization of `EntityLink`: only `href` is required; unknown
keys are ignored. -/
def decodeEntityLink (j : Json) : Except DeError EntityLink :=
  match j with
  | .obj fields => do
    let cls ← defStringList fields "class"
    let title ← optStringField fields "title"
    let rel ← defStringList fields "rel"
    let href ← reqString fields "href"
    let ty ← optStringField fields "type"
    .ok ⟨cls, title, rel, href, ty⟩
  | _ => .error (.invalidType "a map")

/-! The root aggregate.  `Entity` and `SubEntity` are mutually recursive:
an entity owns a list of sub-entities, and the `Embedded` sub-entity variant
owns a nested entity by value. -/

mutual

inductive Entity where
  | mk : List String → Json → List SubEntity → List NavigationalLink →
      List Action → Option String → Entity

inductive SubEntity where
  | Link : EntityLink → SubEntity
  | Embedded : Entity → List String → SubEntity

end

/-- The `class` field of an `Entity`. -/
def Entity.«class» : Entity → List String
  | .mk c _ _ _ _ _ => c

/-- The `properties` field of an `Entity` (a raw `serde_json::Value`). -/
def Entity.properties : Entity → Json
  | .mk _ p _ _ _ _ => p

/-- The `entities` field of an `Entity`. -/
def Entity.entities : Entity → List SubEntity
  | .mk _ _ e _ _ _ => e

/-- The `links` field of an `Entity`. -/
def Entity.links : Entity → List NavigationalLink
  | .mk _ _ _ l _ _ => l

/-- The `actions` field of an `Entity`. -/
def Entity.actions : Entity → List Action
  | .mk _ _ _ _ a _ => a

/-- The `title` field of an `Entity`. -/
def Entity.title : Entity → Option String
  | .mk _ _ _ _ _ t => t

/-- `Default for Entity`: note that the hand-written impl sets `properties`
to an **empty JSON object**, not to `Value`'s own default (which is null). -/
def Entity.default : Entity := .mk [] (.obj []) [] [] [] none

/-- `EntityBuilderError` from `src/types.rs`.  The wrapped
`serde_json::Error` of the `Serde` variant is opaque and modelled by its
message string. -/
inductive EntityBuilderError where
  | NotAnObject : EntityBuilderError
  | Serde : String → EntityBuilderError
deriving DecidableEq

/-- `Entity::with_properties`.  The Rust function first runs
`serde_json::to_value` on an arbitrary serializable argument; that conversion
is modelled by its outcome, an `Except` of either a serialization-failure
message or the produced JSON value. -/
def Entity.with_properties (self : Entity) (serialized : Except String Json) :
    Except EntityBuilderError Entity :=
  match serialized with
  | .error e => .error (.Serde e)
  | .ok value =>
    match value with
    | .obj m =>
      match self with
      | .mk c _ en l a t => .ok (.mk c (.obj m) en l a t)
    | _ => .error .NotAnObject

/-- `Entity::with_class_member`: pushes one class token. -/
def Entity.with_class_member (self : Entity) (class_member : String) : Entity :=
  match self with
  | .mk c p e l a t => .mk (c ++ [class_member]) p e l a t

/-- `Entity::with_link`: pushes one navigational link. -/
def Entity.with_link (self : Entity) (link : NavigationalLink) : Entity :=
  match self with
  | .mk c p e l a t => .mk c p e (l ++ [link]) a t

/-- `Entity::with_action`: pushes one action. -/
def Entity.with_action (self : Entity) (action : Action) : Entity :=
  match self with
  | .mk c p e l a t => .mk c p e l (a ++ [action]) t

/-- `Entity::push_sub_entity`: mutates `self.entities` by pushing one
sub-entity; modelled functionally. -/
def Entity.push_sub_entity (self : Entity) (sub_entity : SubEntity) : Entity :=
  match self with
  | .mk c p e l a t => .mk c p (e ++ [sub_entity]) l a t

/-- `SubEntity::from_link`. -/
def SubEntity.from_link (entity_link : EntityLink) : SubEntity :=
  .Link entity_link

/-- `SubEntity::from_entity` (rels modelled as strings). -/
def SubEntity.from_entity (entity : Entity) (rels : List String) : SubEntity :=
  .Embedded entity rels

/-- `NavigationalLink::new`. -/
def NavigationalLink.new (rels : List String) (href : String) : NavigationalLink :=
  ⟨rels, [], href, none, none⟩

/-- `NavigationalLink::with_class_member`. -/
def NavigationalLink.with_class_member (self : NavigationalLink)
    (class_member : String) : NavigationalLink :=
  { self with «class» := self.«class» ++ [class_member] }

/-- `NavigationalLink::with_type`. -/
def NavigationalLink.with_type (self : NavigationalLink) (t : String) :
    NavigationalLink :=
  { self with _type := some t }

/-- `NavigationalLink::with_title`. -/
def NavigationalLink.with_title (self : NavigationalLink) (t : String) :
    NavigationalLink :=
  { self with title := some t }

/-! Serde serialization of the entity tree.  `encodeEntityFields` is the field
list a serialized `Entity` flattens to; the `Embedded` sub-entity variant
appends its `rel` field after the flattened entity fields, exactly as
`serde(flatten)` emits them. -/

mutual

def encodeEntityFields : Entity → List (String × Json)
  | .mk c p ents lks acts ttl =>
    [("class", .arr (c.map .str)), ("properties", p),
     ("entities", .arr (encodeSubEntityList ents)),
     ("links", .arr (lks.map encodeNavigationalLink)),
     ("actions", .arr (acts.map encodeAction))]
    ++ (match ttl with | none => [] | some t => [("title", .str t)])

def encodeSubEntity : SubEntity → Json
  | .Link inner => encodeEntityLink inner
  | .Embedded inner rel =>
    .obj (encodeEntityFields inner ++ [("rel", .arr (rel.map .str))])

def encodeSubEntityList : List SubEntity → List Json
  | [] => []
  | s :: rest => encodeSubEntity s :: encodeSubEntityList rest

end

/-- Serde serialization of a (root) `Entity`. -/
def encodeEntity (e : Entity) : Json := .obj (encodeEntityFields e)

/-! Serde deserialization of the entity tree.  `decodeSubEntity` models the
untagged `SubEntity` resolution: the `Link` shape is tried first (variant
declaration order), then the `Embedded` shape; when both fail serde reports
its generic untagged-enum message, discarding the per-variant errors. -/

mutual

def decodeEntity (j : Json) : Except DeError Entity :=
  match j with
  | .obj fields =>
    (defStringList fields "class").bind fun c =>
    let p := match lookupField fields "properties" with
      | none => Json.null
      | some v => v
    (match h : lookupField fields "entities" with
      | none => Except.ok []
      | some (.arr xs) => decodeSubEntityList xs
      | some _ => Except.error (DeError.invalidType "a sequence")).bind fun ents =>
    (match lookupField fields "links" with
      | none => Except.ok []
      | some (.arr xs) => xs.mapM decodeNavigationalLink
      | some _ => Except.error (DeError.invalidType "a sequence")).bind fun lks =>
    (match lookupField fields "actions" with
      | none => Except.ok []
      | some (.arr xs) => xs.mapM decodeAction
      | some _ => Except.error (DeError.invalidType "a sequence")).bind fun acts =>
    (optStringField fields "title").bind fun ttl =>
    Except.ok (Entity.mk c p ents lks acts ttl)
  | _ => Except.error (DeError.invalidType "a map")
termination_by (sizeOf j, 0)
decreasing_by
  refine Prod.Lex.left _ _ ?_
  have hs : ∀ fs : List (String × Json), lookupField fs "entities" = some (Json.arr xs) →
      sizeOf (Json.arr xs) < sizeOf (Json.obj fs) := by
    intro fs
    induction fs with
    | nil => intro hc; simp [lookupField] at hc
    | cons head rest ih =>
      obtain ⟨k', v'⟩ := head
      intro hc
      rw [lookupField] at hc
      by_cases hk : k' = "entities"
      · rw [if_pos hk] at hc
        cases hc
        simp
        omega
      · rw [if_neg hk] at hc
        have := ih hc
        simp at this ⊢
        omega
  have := hs fields h
  simp at this ⊢
  omega

def decodeSubEntityList (l : List Json) : Except DeError (List SubEntity) :=
  match l with
  | [] => .ok []
  | x :: rest =>
    (decodeSubEntity x).bind fun s =>
    (decodeSubEntityList rest).bind fun ss =>
    Except.ok (s :: ss)
termination_by (sizeOf l, 0)
decreasing_by
  all_goals exact Prod.Lex.left _ _ (by simp; try omega)

def decodeSubEntity (j : Json) : Except DeError SubEntity :=
  match decodeEntityLink j with
  | .ok l => .ok (.Link l)
  | .error _ =>
    match decodeEmbedded j with
    | .ok s => .ok s
    | .error _ =>
      .error (.custom "data did not match any variant of untagged enum SubEntity")
termination_by (sizeOf j, 2)
decreasing_by
  exact Prod.Lex.right _ (by omega)

def decodeEmbedded (j : Json) : Except DeError SubEntity :=
  match j with
  | .obj fields =>
    (decodeEntity (Json.obj fields)).bind fun inner =>
    (defStringList fields "rel").bind fun rel =>
    Except.ok (SubEntity.Embedded inner rel)
  | _ => Except.error (DeError.invalidType "a map")
termination_by (sizeOf j, 1)
decreasing_by
  exact Prod.Lex.right _ (by omega)

end

/-! Entity trees reachable through the public builder API: start from
`Entity::default`, apply the fluent builder operations, and append
sub-entities built with `SubEntity::from_link` / `SubEntity::from_entity`. -/

mutual

inductive BuiltEntity : Entity → Prop where
  | base : BuiltEntity Entity.default
  | with_properties (e e' : Entity) (r : Except String Json) :
      BuiltEntity e → e.with_properties r = .ok e' → BuiltEntity e'
  | with_class_member (e : Entity) (s : String) :
      BuiltEntity e → BuiltEntity (e.with_class_member s)
  | with_link (e : Entity) (nl : NavigationalLink) :
      BuiltEntity e → BuiltEntity (e.with_link nl)
  | with_action (e : Entity) (a : Action) :
      BuiltEntity e → BuiltEntity (e.with_action a)
  | push_sub_entity (e : Entity) (s : SubEntity) :
      BuiltEntity e → BuiltSubEntity s → BuiltEntity (e.push_sub_entity s)

inductive BuiltSubEntity : SubEntity → Prop where
  | from_link (l : EntityLink) : BuiltSubEntity (SubEntity.from_link l)
  | from_entity (e : Entity) (rels : List String) :
      BuiltEntity e → BuiltSubEntity (SubEntity.from_entity e rels)

end

/-- The recognized `EntityLink` fields of a JSON object are well-typed where
present: `class` and `rel` are arrays of strings, `title` and `type` are
strings or null.  (Unrecognized keys are unconstrained.) -/
def WellTypedLinkFields (fields : List (String × Json)) : Prop :=
  (∀ v, lookupField fields "class" = some v → ∃ ss : List String, v = .arr (ss.map .str)) ∧
  (∀ v, lookupField fields "title" = some v → v = .null ∨ ∃ s, v = .str s) ∧
  (∀ v, lookupField fields "rel" = some v → ∃ ss : List String, v = .arr (ss.map .str)) ∧
  (∀ v, lookupField fields "type" = some v → v = .null ∨ ∃ s, v = .str s)

/-! Round-trip lemmas: decoding inverts encoding, leaf types first. -/

theorem lookupField_append (l1 l2 : List (String × Json)) (k : String) :
    lookupField (l1 ++ l2) k =
      match lookupField l1 k with
      | some v => some v
      | none => lookupField l2 k := by
  induction l1 with
  | nil => simp [lookupField]
  | cons head rest ih =>
    obtain ⟨k', v'⟩ := head
    by_cases hk : k' = k <;> simp [lookupField, hk, ih]

theorem mapM_loop_roundtrip {β : Type} (f : Json → Except DeError β) (g : β → Json)
    (h : ∀ b, f (g b) = .ok b) (bs : List β) (acc : List β) :
    List.mapM.loop f (bs.map g) acc = .ok (acc.reverse ++ bs) := by
  induction bs generalizing acc with
  | nil => simp [List.mapM.loop, pure, Except.pure]
  | cons b rest ih =>
    simp [List.mapM.loop, h, ih, bind, Except.bind]

theorem mapM_decodeString_str (xs : List String) (acc : List String) :
    List.mapM.loop decodeString (xs.map Json.str) acc = .ok (acc.reverse ++ xs) :=
  mapM_loop_roundtrip decodeString Json.str (fun _ => rfl) xs acc

theorem decodeStringList_encode (xs : List String) :
    decodeStringList (.arr (xs.map Json.str)) = .ok xs := by
  simp [decodeStringList, List.mapM, mapM_decodeString_str]

theorem decodeField_encode (f : Field) : decodeField (encodeField f) = .ok f := by
  obtain ⟨name, cls, ty, value, title⟩ := f
  cases ty <;> cases value <;> cases title <;>
    simp [encodeField, decodeField, reqString, defStringList, optStringField,
      lookupField, decodeString, decodeOptString, decodeStringList, mapM_decodeString_str,
      bind, Except.bind, pure, Except.pure]

theorem mapM_decodeField_encode (fs : List Field) (acc : List Field) :
    List.mapM.loop decodeField (fs.map encodeField) acc = .ok (acc.reverse ++ fs) :=
  mapM_loop_roundtrip decodeField encodeField decodeField_encode fs acc

theorem option_method_roundtrip (m : Option Method) :
    option_method.deserialize (option_method.serialize m) = .ok m := by
  cases m <;> rfl

theorem decodeAction_encode (a : Action) : decodeAction (encodeAction a) = .ok a := by
  obtain ⟨name, cls, method, href, title, ty, flds⟩ := a
  cases title <;> cases ty <;>
    simp [encodeAction, decodeAction, reqString, defStringList, optStringField,
      lookupField, decodeString, decodeOptString, decodeStringList, mapM_decodeString_str,
      mapM_decodeField_encode, option_method_roundtrip,
      bind, Except.bind, pure, Except.pure]

theorem mapM_decodeAction_encode (as : List Action) (acc : List Action) :
    List.mapM.loop decodeAction (as.map encodeAction) acc = .ok (acc.reverse ++ as) :=
  mapM_loop_roundtrip decodeAction encodeAction decodeAction_encode as acc

theorem decodeNavigationalLink_encode (nl : NavigationalLink) :
    decodeNavigationalLink (encodeNavigationalLink nl) = .ok nl := by
  obtain ⟨rel, cls, href, title, ty⟩ := nl
  cases title <;> cases ty <;>
    simp [encodeNavigationalLink, decodeNavigationalLink, reqString, reqStringList,
      defStringList, optStringField, lookupField, decodeString, decodeOptString,
      decodeStringList, mapM_decodeString_str, bind, Except.bind, pure, Except.pure]

theorem mapM_decodeNavigationalLink_encode (ls : List NavigationalLink)
    (acc : List NavigationalLink) :
    List.mapM.loop decodeNavigationalLink (ls.map encodeNavigationalLink) acc =
      .ok (acc.reverse ++ ls) :=
  mapM_loop_roundtrip decodeNavigationalLink encodeNavigationalLink
    decodeNavigationalLink_encode ls acc

theorem decodeEntityLink_encode (l : EntityLink) :
    decodeEntityLink (encodeEntityLink l) = .ok l := by
  obtain ⟨cls, title, rel, href, ty⟩ := l
  cases title <;> cases ty <;>
    simp [encodeEntityLink, decodeEntityLink, reqString, defStringList, optStringField,
      lookupField, decodeString, decodeOptString, decodeStringList, mapM_decodeString_str,
      bind, Except.bind, pure, Except.pure]

/-! The key layout of a serialized entity: the five collection keys are always
present, `title` only when set, and neither `href` nor `rel` ever appears. -/

theorem lookup_eef_class (e : Entity) :
    lookupField (encodeEntityFields e) "class" = some (.arr (e.«class».map .str)) := by
  obtain ⟨c, p, ents, lks, acts, ttl⟩ := e
  cases ttl <;> simp [encodeEntityFields, lookupField, Entity.«class»]

theorem lookup_eef_properties (e : Entity) :
    lookupField (encodeEntityFields e) "properties" = some e.properties := by
  obtain ⟨c, p, ents, lks, acts, ttl⟩ := e
  cases ttl <;> simp [encodeEntityFields, lookupField, Entity.properties]

theorem lookup_eef_entities (e : Entity) :
    lookupField (encodeEntityFields e) "entities" =
      some (.arr (encodeSubEntityList e.entities)) := by
  obtain ⟨c, p, ents, lks, acts, ttl⟩ := e
  cases ttl <;> simp [encodeEntityFields, lookupField, Entity.entities]

theorem lookup_eef_links (e : Entity) :
    lookupField (encodeEntityFields e) "links" =
      some (.arr (e.links.map encodeNavigationalLink)) := by
  obtain ⟨c, p, ents, lks, acts, ttl⟩ := e
  cases ttl <;> simp [encodeEntityFields, lookupField, Entity.links]

theorem lookup_eef_actions (e : Entity) :
    lookupField (encodeEntityFields e) "actions" =
      some (.arr (e.actions.map encodeAction)) := by
  obtain ⟨c, p, ents, lks, acts, ttl⟩ := e
  cases ttl <;> simp [encodeEntityFields, lookupField, Entity.actions]

theorem lookup_eef_title (e : Entity) :
    lookupField (encodeEntityFields e) "title" = e.title.map Json.str := by
  obtain ⟨c, p, ents, lks, acts, ttl⟩ := e
  cases ttl <;> simp [encodeEntityFields, lookupField, Entity.title]

theorem lookup_eef_href (e : Entity) :
    lookupField (encodeEntityFields e) "href" = none := by
  obtain ⟨c, p, ents, lks, acts, ttl⟩ := e
  cases ttl <;> simp [encodeEntityFields, lookupField]

theorem lookup_eef_rel (e : Entity) :
    lookupField (encodeEntityFields e) "rel" = none := by
  obtain ⟨c, p, ents, lks, acts, ttl⟩ := e
  cases ttl <;> simp [encodeEntityFields, lookupField]

/-- The link shape always rejects a serialized embedded sub-entity: the
flattened entity fields never contain an `href` key, so decoding them as an
`EntityLink` stops at the missing required `href`. -/
theorem decodeEntityLink_embedded (e : Entity) (rels : List String) :
    decodeEntityLink (.obj (encodeEntityFields e ++ [("rel", .arr (rels.map .str))])) =
      .error (.missingField "href") := by
  have hc := lookup_eef_class e
  have ht := lookup_eef_title e
  have hr := lookup_eef_rel e
  have hh := lookup_eef_href e
  simp [decodeEntityLink, defStringList, optStringField, reqString,
    lookupField_append, hc, ht, hr, hh, decodeStringList_encode,
    bind, Except.bind, pure, Except.pure]
  cases e.title <;>
    simp [decodeOptString, lookupField, decodeStringList_encode,
      bind, Except.bind, pure, Except.pure]

/-! The entity-tree round trip, by mutual induction on the tree.
`decodeEntity_encode` is stated with an arbitrary tail `rest` appended after
the flattened entity fields (carrying no `title` key), so that it covers both
a root entity (`rest = []`) and an embedded sub-entity
(`rest = [("rel", ...)]`, consumed by the `Embedded` wrapper and invisible to
the flattened `Entity` deserializer). -/

mutual

theorem decodeEntity_encode (e : Entity) (rest : List (String × Json))
    (hrest : lookupField rest "title" = none) :
    decodeEntity (.obj (encodeEntityFields e ++ rest)) = .ok e := by
  obtain ⟨c, p, ents, lks, acts, ttl⟩ := e
  have hents := decodeSubEntityList_encode ents
  cases ttl <;>
    simp [encodeEntityFields, decodeEntity, defStringList, optStringField,
      lookupField, lookupField_append, hrest, hents, decodeStringList_encode,
      List.mapM, mapM_decodeNavigationalLink_encode, mapM_decodeAction_encode,
      decodeOptString, decodeStringList, mapM_decodeString_str,
      bind, Except.bind, pure, Except.pure]
termination_by (sizeOf e, 0)
decreasing_by
  exact Prod.Lex.left _ _ (by simp; omega)

theorem decodeSubEntity_encode (s : SubEntity) :
    decodeSubEntity (encodeSubEntity s) = .ok s := by
  cases s with
  | Link inner =>
    simp [encodeSubEntity, decodeSubEntity, decodeEntityLink_encode inner]
  | Embedded inner rels =>
    have hinner := decodeEntity_encode inner [("rel", .arr (rels.map .str))]
      (by simp [lookupField])
    simp [encodeSubEntity, decodeSubEntity, decodeEntityLink_embedded, hinner,
      decodeEmbedded, defStringList, lookupField_append, lookup_eef_rel,
      lookupField, decodeStringList_encode, bind, Except.bind, pure, Except.pure]
termination_by (sizeOf s, 0)
decreasing_by
  exact Prod.Lex.left _ _ (by simp; omega)

theorem decodeSubEntityList_encode (l : List SubEntity) :
    decodeSubEntityList (encodeSubEntityList l) = .ok l := by
  cases l with
  | nil => simp [encodeSubEntityList, decodeSubEntityList]
  | cons s rest =>
    have hs := decodeSubEntity_encode s
    have hrest := decodeSubEntityList_encode rest
    simp [encodeSubEntityList, decodeSubEntityList, hs, hrest,
      bind, Except.bind, pure, Except.pure]
termination_by (sizeOf l, 0)
decreasing_by
  all_goals exact Prod.Lex.left _ _ (by simp; try omega)

end

/-- Full round trip for any entity tree: decoding a serialized entity
reproduces it exactly. -/
theorem decodeEntity_encodeEntity (e : Entity) :
    decodeEntity (encodeEntity e) = .ok e := by
  have h := decodeEntity_encode e [] rfl
  simpa [encodeEntity] using h

/-- Folding `push_sub_entity` over a list of sub-entities appends exactly that
list and touches no other field. -/
theorem foldl_push_sub_entity (e : Entity) (subs : List SubEntity) :
    subs.foldl Entity.push_sub_entity e =
      .mk e.«class» e.properties (e.entities ++ subs) e.links e.actions e.title := by
  induction subs generalizing e with
  | nil =>
    obtain ⟨c, p, ents, lks, acts, ttl⟩ := e
    simp [Entity.«class», Entity.properties, Entity.entities, Entity.links,
      Entity.actions, Entity.title]
  | cons s rest ih =>
    obtain ⟨c, p, ents, lks, acts, ttl⟩ := e
    simp only [List.foldl_cons]
    rw [ih]
    simp [Entity.push_sub_entity, Entity.«class», Entity.properties, Entity.entities,
      Entity.links, Entity.actions, Entity.title]

/-- C1: deserializing the JSON object with href "http://x/1" and rel ["item"]
as a `SubEntity` yields the `Link` variant carrying exactly that href and rel,
not the `Embedded` variant, because the link shape is tried first in the
untagged resolution. -/
theorem C1_ambiguous_object_decodes_as_Link :
    decodeSubEntity (.obj [("href", .str "http://x/1"), ("rel", .arr [.str "item"])]) =
      .ok (.Link ⟨[], none, ["item"], "http://x/1", none⟩) := by
  simp [decodeSubEntity, decodeEntityLink, defStringList, optStringField, reqString,
    lookupField, decodeStringList, decodeString, List.mapM, List.mapM.loop,
    bind, Except.bind, pure, Except.pure]

/-- C2 (documents the code bug): decoding an Entity document in which the
`properties` key is absent yields JSON **null** for `properties` — the field
default of `serde_json::Value` — not the empty object; `Entity::default`, in
contrast, uses the empty object, and re-encoding the decoded entity emits a
null `properties`, so a decoded-then-encoded entity's properties need not be
an object. -/
theorem C2_absent_properties_decodes_to_null :
    decodeEntity (.obj []) = .ok (.mk [] .null [] [] [] none) ∧
    Entity.default = .mk [] (.obj []) [] [] [] none ∧
    encodeEntity (.mk [] .null [] [] [] none) =
      .obj [("class", .arr []), ("properties", .null), ("entities", .arr []),
            ("links", .arr []), ("actions", .arr [])] := by
  refine ⟨?_, rfl, ?_⟩
  · simp [decodeEntity, defStringList, optStringField, lookupField, Except.bind]
  · simp [encodeEntity, encodeEntityFields, encodeSubEntityList]

/-- C3: `with_properties` succeeds exactly on values that serialize to a JSON
object, storing the object unchanged and leaving every other field intact;
any non-object value is rejected with `NotAnObject`, and a failed
serialization is wrapped in the `Serde` variant. -/
theorem C3_with_properties_object_only :
    (∀ (e : Entity) (m : List (String × Json)),
      e.with_properties (.ok (.obj m)) =
        .ok (.mk e.«class» (.obj m) e.entities e.links e.actions e.title)) ∧
    (∀ (e : Entity) (v : Json), (∀ m, v ≠ .obj m) →
      e.with_properties (.ok v) = .error .NotAnObject) ∧
    (∀ (e : Entity) (msg : String),
      e.with_properties (.error msg) = .error (.Serde msg)) := by
  refine ⟨?_, ?_, ?_⟩
  · intro e m
    obtain ⟨c, p, ents, lks, acts, ttl⟩ := e
    simp [Entity.with_properties, Entity.«class», Entity.properties, Entity.entities,
      Entity.links, Entity.actions, Entity.title]
  · intro e v h
    cases v <;> simp [Entity.with_properties]
    exact absurd rfl (h _)
  · intro e msg
    rfl

/-- Witness for C3 at the spec's own examples: 42, "s", and [1,2] are
rejected with `NotAnObject`; the Kevin/age object is accepted unchanged. -/
theorem C3_with_properties_object_only_witness :
    Entity.default.with_properties (.ok (.num 42)) = .error .NotAnObject ∧
    Entity.default.with_properties (.ok (.str "s")) = .error .NotAnObject ∧
    Entity.default.with_properties (.ok (.arr [.num 1, .num 2])) = .error .NotAnObject ∧
    Entity.default.with_properties
        (.ok (.obj [("name", .str "Kevin"), ("age", .num 30)])) =
      .ok (.mk [] (.obj [("name", .str "Kevin"), ("age", .num 30)]) [] [] [] none) :=
  ⟨C3_with_properties_object_only.2.1 _ _ (fun m h => by cases h),
   C3_with_properties_object_only.2.1 _ _ (fun m h => by cases h),
   C3_with_properties_object_only.2.1 _ _ (fun m h => by cases h),
   C3_with_properties_object_only.1 Entity.default [("name", .str "Kevin"), ("age", .num 30)]⟩

/-- C4 counterexample: decoding a NavigationalLink object that has an `href`
but no `rel` does NOT succeed with an empty relation sequence — it fails with
a missing-field decode error, because `rel` carries no serde default on
`NavigationalLink`. -/
theorem C4_missing_rel_fails :
    decodeNavigationalLink (.obj [("href", .str "http://x")]) =
      .error (.missingField "rel") := rfl

/-- C4 (amended): decoding a NavigationalLink-shaped object missing `href`
fails with a decode error, and decoding one missing `rel` ALSO fails with a
decode error; the rel-defaulting permissiveness belongs to `EntityLink` and
embedded sub-entities, not to `NavigationalLink`. -/
theorem C4_href_and_rel_required :
    (∀ fields : List (String × Json), lookupField fields "href" = none →
      ∃ err, decodeNavigationalLink (.obj fields) = .error err) ∧
    (∀ fields : List (String × Json), lookupField fields "rel" = none →
      ∃ err, decodeNavigationalLink (.obj fields) = .error err) := by
  constructor
  · intro fields h
    cases hrel : reqStringList fields "rel" with
    | error e =>
      exact ⟨e, by simp [decodeNavigationalLink, hrel, bind, Except.bind]⟩
    | ok rel =>
      cases hcls : defStringList fields "class" with
      | error e =>
        exact ⟨e, by simp [decodeNavigationalLink, hrel, hcls, bind, Except.bind]⟩
      | ok cls =>
        refine ⟨.missingField "href", ?_⟩
        simp [decodeNavigationalLink, hrel, hcls, reqString, h, bind, Except.bind]
  · intro fields h
    refine ⟨.missingField "rel", ?_⟩
    simp [decodeNavigationalLink, reqStringList, h, bind, Except.bind]

/-- Witness for C4 (amended) on concrete objects: one missing `href`, one
missing `rel`. -/
theorem C4_href_and_rel_required_witness :
    (∃ err, decodeNavigationalLink (.obj [("rel", .arr [.str "self"])]) = .error err) ∧
    (∃ err, decodeNavigationalLink (.obj [("href", .str "http://x")]) = .error err) :=
  ⟨C4_href_and_rel_required.1 _ (by simp [lookupField]),
   C4_href_and_rel_required.2 _ (by simp [lookupField])⟩

/-- C5: for every entity tree constructed through the builder API, decoding
the encoding reproduces the tree exactly — same fields, same element order,
same variant choices.  (The link/embedded canonical-resolution exception is
never exercised: a serialized `Embedded` sub-entity never contains an `href`
key, so it is never satisfiable by the link shape.) -/
theorem C5_builder_roundtrip (e : Entity) (_built : BuiltEntity e) :
    decodeEntity (encodeEntity e) = .ok e :=
  decodeEntity_encodeEntity e

/-- Witness for C5 on a concrete builder-built tree with a class member, a
navigational link, and an embedded sub-entity. -/
theorem C5_builder_roundtrip_witness :
    decodeEntity (encodeEntity
      (((Entity.default.with_class_member "order").with_link
          (NavigationalLink.new ["self"] "http://x/42")).push_sub_entity
        (SubEntity.from_entity (Entity.default.with_class_member "item") ["item"]))) =
    .ok (((Entity.default.with_class_member "order").with_link
          (NavigationalLink.new ["self"] "http://x/42")).push_sub_entity
        (SubEntity.from_entity (Entity.default.with_class_member "item") ["item"])) :=
  C5_builder_roundtrip _
    (BuiltEntity.push_sub_entity _ _
      (BuiltEntity.with_link _ _ (BuiltEntity.with_class_member _ _ BuiltEntity.base))
      (BuiltSubEntity.from_entity _ _ (BuiltEntity.with_class_member _ _ BuiltEntity.base)))

/-- C6 (documents the code bug): decoding an Action JSON object whose
`method` key is absent does NOT succeed with a GET method — it fails with a
missing-field error, because `method` carries `serde(with = ...)` without
`serde(default)`, and serde's derived deserializer rejects the absent key
before the codec (where GET defaulting would live) is ever consulted. -/
theorem C6_absent_method_is_error :
    decodeAction (.obj [("name", .str "add-item"), ("href", .str "http://x")]) =
      .error (.missingField "method") := rfl

/-- C7 counterexample: this object satisfies neither SubEntity shape (no
`href` for the link shape; its `links` entry is missing required fields for
the embedded shape), and deserialization fails with serde's generic
untagged-enum message — NOT with an error surfacing the underlying missing
required field. -/
theorem C7_error_is_generic_not_missing_field :
    decodeSubEntity (.obj [("links", .arr [.obj []])]) =
      .error (.custom "data did not match any variant of untagged enum SubEntity") := by
  simp [decodeSubEntity, decodeEntityLink, decodeEmbedded, decodeEntity,
    decodeNavigationalLink, defStringList, optStringField, reqString, reqStringList,
    lookupField, List.mapM, List.mapM.loop, bind, Except.bind, pure, Except.pure]

/-- C7 (amended): whenever both SubEntity shapes fail, deserialization fails,
but the returned error is serde's generic untagged mismatch message; the
per-variant structural errors (such as a missing required field) are
discarded by the untagged resolution. -/
theorem C7_untagged_failure_generic (j : Json) (e1 e2 : DeError)
    (h1 : decodeEntityLink j = .error e1) (h2 : decodeEmbedded j = .error e2) :
    decodeSubEntity j =
      .error (.custom "data did not match any variant of untagged enum SubEntity") := by
  simp [decodeSubEntity, h1, h2]

/-- Witness for C7 (amended) on a concrete object rejected by both shapes. -/
theorem C7_untagged_failure_generic_witness :
    decodeSubEntity (.obj [("entities", .str "nope")]) =
      .error (.custom "data did not match any variant of untagged enum SubEntity") :=
  C7_untagged_failure_generic _ (.missingField "href") (.invalidType "a sequence") rfl
    (by simp [decodeEmbedded, decodeEntity, defStringList, optStringField, lookupField,
      bind, Except.bind, pure, Except.pure])

/-- C8: appending N sub-entities through `push_sub_entity` grows the
`entities` sequence by exactly those N elements in call order, preserving the
content and relative position of the previously present sub-entities, and
leaves every other field of the Entity unchanged. -/
theorem C8_push_sub_entity_monotonic (e : Entity) (subs : List SubEntity) :
    (subs.foldl Entity.push_sub_entity e).entities = e.entities ++ subs ∧
    (subs.foldl Entity.push_sub_entity e).entities.length
      = e.entities.length + subs.length ∧
    (subs.foldl Entity.push_sub_entity e).«class» = e.«class» ∧
    (subs.foldl Entity.push_sub_entity e).properties = e.properties ∧
    (subs.foldl Entity.push_sub_entity e).links = e.links ∧
    (subs.foldl Entity.push_sub_entity e).actions = e.actions ∧
    (subs.foldl Entity.push_sub_entity e).title = e.title := by
  rw [foldl_push_sub_entity]
  simp [Entity.«class», Entity.properties, Entity.entities, Entity.links,
    Entity.actions, Entity.title]

/-- C9: `with_class_member` always succeeds, appends exactly one class token
preserving call order and every other field, and the a/b/c chain from the
default entity encodes with class exactly ["a","b","c"]. -/
theorem C9_class_member_order :
    (∀ (e : Entity) (s : String),
      (e.with_class_member s).«class» = e.«class» ++ [s] ∧
      (e.with_class_member s).properties = e.properties ∧
      (e.with_class_member s).entities = e.entities ∧
      (e.with_class_member s).links = e.links ∧
      (e.with_class_member s).actions = e.actions ∧
      (e.with_class_member s).title = e.title) ∧
    encodeEntity
        (((Entity.default.with_class_member "a").with_class_member "b").with_class_member
          "c") =
      .obj [("class", .arr [.str "a", .str "b", .str "c"]), ("properties", .obj []),
            ("entities", .arr []), ("links", .arr []), ("actions", .arr [])] := by
  constructor
  · intro e s
    obtain ⟨c, p, ents, lks, acts, ttl⟩ := e
    simp [Entity.with_class_member, Entity.«class», Entity.properties, Entity.entities,
      Entity.links, Entity.actions, Entity.title]
  · simp [Entity.default, Entity.with_class_member, encodeEntity, encodeEntityFields,
      encodeSubEntityList]

theorem defStringList_of_wt (fields : List (String × Json)) (k : String)
    (h : ∀ v, lookupField fields k = some v → ∃ ss : List String, v = .arr (ss.map .str)) :
    ∃ ss, defStringList fields k = .ok ss := by
  cases hv : lookupField fields k with
  | none => exact ⟨[], by simp [defStringList, hv]⟩
  | some v =>
    obtain ⟨ss, rfl⟩ := h v hv
    exact ⟨ss, by simp [defStringList, hv, decodeStringList_encode]⟩

theorem optStringField_of_wt (fields : List (String × Json)) (k : String)
    (h : ∀ v, lookupField fields k = some v → v = .null ∨ ∃ s, v = .str s) :
    ∃ o, optStringField fields k = .ok o := by
  cases hv : lookupField fields k with
  | none => exact ⟨none, by simp [optStringField, hv]⟩
  | some v =>
    rcases h v hv with rfl | ⟨s, rfl⟩
    · exact ⟨none, by simp [optStringField, hv, decodeOptString]⟩
    · exact ⟨some s, by simp [optStringField, hv, decodeOptString]⟩

/-- C10: any JSON object with a string `href` whose recognized link fields
are well-typed decodes as the `Link` variant (extra embedded-entity content
is silently discarded: it cannot affect the result, which is assembled from
the five recognized keys alone); conversely the `Embedded` variant is only
ever produced when the link shape rejects the object. -/
theorem C10_link_shape_priority :
    (∀ (fields : List (String × Json)) (s : String),
      lookupField fields "href" = some (.str s) → WellTypedLinkFields fields →
      ∃ l, decodeSubEntity (.obj fields) = .ok (.Link l) ∧ l.href = s) ∧
    (∀ (j : Json) (inner : Entity) (rels : List String),
      decodeSubEntity j = .ok (.Embedded inner rels) →
      ∃ err, decodeEntityLink j = .error err) := by
  constructor
  · intro fields s hhref hwt
    obtain ⟨h1, h2, h3, h4⟩ := hwt
    obtain ⟨cls, hcls⟩ := defStringList_of_wt fields "class" h1
    obtain ⟨ttl, httl⟩ := optStringField_of_wt fields "title" h2
    obtain ⟨rl, hrl⟩ := defStringList_of_wt fields "rel" h3
    obtain ⟨ty, hty⟩ := optStringField_of_wt fields "type" h4
    have hlink : decodeEntityLink (.obj fields) = .ok ⟨cls, ttl, rl, s, ty⟩ := by
      simp [decodeEntityLink, hcls, httl, hrl, hty, reqString, hhref, decodeString,
        bind, Except.bind, pure, Except.pure]
    exact ⟨⟨cls, ttl, rl, s, ty⟩, by simp [decodeSubEntity, hlink], rfl⟩
  · intro j inner rels h
    cases hl : decodeEntityLink j with
    | ok l => simp [decodeSubEntity, hl] at h
    | error e => exact ⟨e, rfl⟩

/-- Witness for C10 on a concrete object that carries embedded-entity
content next to a valid link shape: it still decodes as a Link. -/
theorem C10_link_shape_priority_witness :
    ∃ l, decodeSubEntity (.obj [("href", .str "http://x/9"), ("rel", .arr [.str "item"]),
      ("properties", .obj [("a", .num 1)]), ("entities", .num 3), ("actions", .null)]) =
      .ok (.Link l) ∧ EntityLink.href l = "http://x/9" :=
  C10_link_shape_priority.1 _ "http://x/9" (by simp [lookupField])
    ⟨by intro v hv; simp [lookupField] at hv,
     by intro v hv; simp [lookupField] at hv,
     by intro v hv
        simp [lookupField] at hv
        exact ⟨["item"], by simp [hv]⟩,
     by intro v hv; simp [lookupField] at hv⟩

end Siren
